import Mathlib

/-!
Verification of the statsd-mesos-kafka scheduler (Go sources under
`statsd/scheduler.go`, `statsd/config.go`, the HTTP control-plane file and
`main.go`) against its natural-language specification.

Modelling conventions used throughout this development:
* Go strings are modelled as Lean `String`s (the data handled by the
  scheduler is ASCII, so byte indexing and character indexing coincide).
* Go `float64` scalar quantities (cpu and memory amounts) are modelled as
  rationals `ℚ`; every operation the scheduler performs on them is a sum
  of offered amounts and order comparisons, which the model performs
  exactly as the source does.
* Code that can panic at runtime (out-of-range slicing, method call on a
  nil interface value) is modelled with `Option`: `none` is a panic.
* The mesos driver and protobuf plumbing are external collaborators; only
  the commands the scheduler issues through them are modelled, as the
  inductive `Command` type.
-/

/-- One step of Go `strings.SplitN(s, sep, n)` restricted to a single-char
separator, accumulator style: `acc` holds the (reversed) characters of the
token being built, the `Nat` is the number of separators that may still be
consumed (`n - 1` at the top level), and the final token receives the whole
unsplit remainder once the budget is exhausted. -/
def splitNAux (sep : Char) : List Char → Nat → List Char → List (List Char)
  | acc, _, [] => [acc.reverse]
  | acc, 0, rest => [acc.reverse ++ rest]
  | acc, m + 1, c :: cs =>
      if c = sep then acc.reverse :: splitNAux sep [] m cs
      else splitNAux sep (c :: acc) (m + 1) cs

/-- Go `strings.SplitN(s, sep, n)` for a single-character separator `sep`:
at most `n` substrings, the last one holding the unsplit remainder;
`n = 0` yields the empty list, and splitting the empty string yields
`[[]]`, exactly as in Go. -/
def goSplitN (sep : Char) (n : Nat) (s : List Char) : List (List Char) :=
  match n with
  | 0 => []
  | m + 1 => splitNAux sep [] m s

/-- `Scheduler.hostnameFromTaskId` (scheduler.go): split the task id on the
first two hyphens, take the last token and strip its trailing 37 characters
(hyphen plus 36-character uuid).  The Go code does the stripping with the
slice `hostname[:len(hostname)-37]`, which panics when the token is shorter
than 37 characters; the panic is modelled by `none`. -/
def hostnameFromTaskId (taskId : String) : Option String :=
  let tokens := goSplitN '-' 3 taskId.toList
  let hostname := tokens.getLastD []
  if hostname.length < 37 then none
  else some (String.mk (hostname.take (hostname.length - 37)))

theorem splitNAux_zero (sep : Char) (acc rest : List Char) :
    splitNAux sep acc 0 rest = [acc.reverse ++ rest] := by
  cases rest <;> simp [splitNAux]

theorem take_length_append (l₁ l₂ : List Char) :
    (l₁ ++ l₂).take l₁.length = l₁ := by
  induction l₁ with
  | nil => simp
  | cons c cs ih => simp [ih]

theorem toList_append (a b : String) : (a ++ b).toList = a.toList ++ b.toList := by
  cases a
  cases b
  rfl

/-- **C1.** Round-trip of the Task Identity Codec: decoding the identifier
built by the encoder in `Scheduler.launchTask` — the string
`"statsd-kafka-" ++ h ++ "-" ++ u` for a 36-character uuid `u` — recovers
the hostname `h`, whether or not `h` contains hyphens. -/
theorem hostname_roundtrip (h u : String) (hu : u.length = 36) :
    hostnameFromTaskId ("statsd-kafka-" ++ h ++ "-" ++ u) = some h := by
  have hu' : u.toList.length = 36 := hu
  have hexp : ("statsd-kafka-" ++ h ++ "-" ++ u).toList
      = 's' :: 't' :: 'a' :: 't' :: 's' :: 'd' :: '-' :: 'k' :: 'a' :: 'f' :: 'k' :: 'a' :: '-' ::
        (h.toList ++ '-' :: u.toList) := by
    simp [toList_append]
  have hsplit : goSplitN '-' 3 ("statsd-kafka-" ++ h ++ "-" ++ u).toList
      = [['s', 't', 'a', 't', 's', 'd'], ['k', 'a', 'f', 'k', 'a'],
         h.toList ++ '-' :: u.toList] := by
    rw [hexp]
    simp [goSplitN, splitNAux, splitNAux_zero]
  have hlen : (h.toList ++ '-' :: u.toList).length = h.toList.length + 37 := by
    simp [List.length_append]
    exact hu
  rw [hostnameFromTaskId, hsplit]
  show (if (h.toList ++ '-' :: u.toList).length < 37 then none
        else some (String.mk ((h.toList ++ '-' :: u.toList).take
          ((h.toList ++ '-' :: u.toList).length - 37)))) = some h
  rw [if_neg (by omega), hlen, Nat.add_sub_cancel, take_length_append]
  rfl

/-- Witness for C1 at a hyphenated hostname and a canonical uuid. -/
theorem hostname_roundtrip_witness :
    ("00000000-0000-0000-0000-000000000000" : String).length = 36 ∧
      hostnameFromTaskId
        ("statsd-kafka-" ++ "host-a" ++ "-" ++ "00000000-0000-0000-0000-000000000000")
        = some "host-a" :=
  ⟨by decide, hostname_roundtrip "host-a" "00000000-0000-0000-0000-000000000000" (by decide)⟩

/-- **C10.** The hostname decoder is partial: it panics (modelled `none`)
exactly when the token remaining after the first two hyphens is shorter
than 37 characters, e.g. on `"statsd-kafka-x"`; it is total on identifiers
whose final token has length at least 37. -/
theorem hostname_decoder_domain :
    (∀ taskId : String,
        hostnameFromTaskId taskId = none ↔
          ((goSplitN '-' 3 taskId.toList).getLastD []).length < 37) ∧
      hostnameFromTaskId "statsd-kafka-x" = none := by
  constructor
  · intro taskId
    rw [hostnameFromTaskId]
    by_cases hlt : ((goSplitN '-' 3 taskId.toList).getLastD []).length < 37
    · simp [hlt]
    · simp [hlt]
  · decide

/-- Transform selector constants (transform.go). -/
def TransformNone : String := "none"

/-- Transform selector for schema-registry-encoded (avro) payloads. -/
def TransformAvro : String := "avro"

/-- Transform selector for binary protobuf payloads. -/
def TransformProto : String := "proto"

/-- The `config` struct of config.go.  `Cpus` and `Mem` are `float64` in Go,
modelled as rationals. -/
structure config where
  Api : String := ""
  Master : String := ""
  FrameworkName : String := "statsd-kafka"
  FrameworkRole : String := "*"
  User : String := ""
  Cpus : ℚ := 1 / 10
  Mem : ℚ := 64
  Executor : String := ""
  ProducerProperties : String := ""
  BrokerList : String := ""
  Topic : String := ""
  Transform : String := "none"
  SchemaRegistryUrl : String := ""
  Namespace : String := ""
  LogLevel : String := "info"
deriving DecidableEq, Repr

/-- `config.CanStart` (config.go): refuse when the avro transform is
selected without a schema-registry URL; otherwise require a topic and at
least one of the producer-properties file or the broker list. -/
def config.CanStart (c : config) : Bool :=
  if c.Transform == TransformAvro && c.SchemaRegistryUrl == "" then false
  else (c.ProducerProperties != "" || c.BrokerList != "") && c.Topic != ""

/-- **C7.** The "can start" predicate holds iff the topic is non-empty, at
least one of the broker list or producer properties is non-empty, and, when
the transform selector is the avro variant, the schema-registry URL is
non-empty. -/
theorem canStart_iff (c : config) :
    c.CanStart = true ↔
      (c.Topic ≠ "" ∧ (c.BrokerList ≠ "" ∨ c.ProducerProperties ≠ "") ∧
        (c.Transform ≠ TransformAvro ∨ c.SchemaRegistryUrl ≠ "")) := by
  rw [config.CanStart]
  by_cases h1 : c.Transform = TransformAvro
  · by_cases h2 : c.SchemaRegistryUrl = ""
    · simp [h1, h2]
    · simp [h1, h2]
      tauto
  · simp [h1]
    tauto

/-- One entry of an offer's `Resources` list (mesos `Resource`): a name and,
when the entry is scalar-typed, its scalar value.  `GetScalar().GetValue()`
on a non-scalar entry yields `0` in Go, modelled by `Option.getD 0`. -/
structure Resource where
  name : String
  scalar : Option ℚ
deriving DecidableEq, Repr

/-- A mesos offer as the scheduler consumes it: identifier, hostname, slave
identifier and resource entries. -/
structure Offer where
  id : String
  hostname : String
  slaveId : String
  resources : List Resource
deriving DecidableEq, Repr

/-- `getScalarResources` (scheduler.go): filter the offer's resource
entries by name and fold their scalar values (0 for an entry without a
scalar) starting from 0. -/
def getScalarResources (offer : Offer) (resourceName : String) : ℚ :=
  (offer.resources.filter (fun res => res.name == resourceName)).foldl
    (fun acc res => acc + res.scalar.getD 0) 0

/-- `Scheduler.match` (scheduler.go): decline reason `"no cpus"` when the
offered cpus fall short of `Config.Cpus`, else `"no mem"` when the offered
mem falls short of `Config.Mem`, else the empty string (accepted). -/
def matchOffer (cfg : config) (offer : Offer) : String :=
  if cfg.Cpus > getScalarResources offer "cpus" then "no cpus"
  else if cfg.Mem > getScalarResources offer "mem" then "no mem"
  else ""

theorem foldl_add_eq_sum (f : Resource → ℚ) (l : List Resource) (a : ℚ) :
    l.foldl (fun acc r => acc + f r) a = a + (l.map f).sum := by
  induction l generalizing a with
  | nil => simp
  | cons r t ih => simp [ih, add_assoc]

theorem sum_scalar_drop_none (nm : String) (l : List Resource) :
    ((l.filter (fun r => r.name == nm)).map (fun r => r.scalar.getD 0)).sum
      = ((l.filter (fun r => r.name == nm && r.scalar.isSome)).map
          (fun r => r.scalar.getD 0)).sum := by
  induction l with
  | nil => rfl
  | cons r t ih =>
      by_cases hn : r.name = nm
      · cases hs : r.scalar with
        | none => simp [List.filter_cons, hn, hs, ih]
        | some v => simp [List.filter_cons, hn, hs, ih]
      · simp [List.filter_cons, hn, ih]

/-- **C2 (amended).** The matcher sums all scalar resource entries of the
offer whose name equals the requested resource name (split entries are all
summed; entries without a scalar contribute nothing); it declines with the
code's compute reason `"no cpus"` exactly when the summed cpus fall short
of the desired cpus, regardless of memory; when cpus suffice it declines
with the memory reason `"no mem"` exactly when the summed mem falls short;
it accepts (empty reason) exactly when both dimensions are satisfied. -/
theorem match_spec (cfg : config) (offer : Offer) :
    (∀ nm : String,
        getScalarResources offer nm
          = ((offer.resources.filter (fun res => res.name == nm && res.scalar.isSome)).map
              (fun res => res.scalar.getD 0)).sum) ∧
      (matchOffer cfg offer = "no cpus" ↔ getScalarResources offer "cpus" < cfg.Cpus) ∧
      (matchOffer cfg offer = "no mem" ↔
        (cfg.Cpus ≤ getScalarResources offer "cpus" ∧ getScalarResources offer "mem" < cfg.Mem)) ∧
      (matchOffer cfg offer = "" ↔
        (cfg.Cpus ≤ getScalarResources offer "cpus" ∧ cfg.Mem ≤ getScalarResources offer "mem")) := by
  refine ⟨fun nm => ?_, ?_, ?_, ?_⟩
  · rw [getScalarResources, foldl_add_eq_sum, zero_add, sum_scalar_drop_none]
  all_goals
    rw [matchOffer]
    split_ifs with h1 h2 <;> simp_all [not_lt]

/-- The claim's quoted decline reason does not match the code: an offer with
no resources at all is short on compute, and `Scheduler.match` reports
`"no cpus"`, not `"insufficient compute"`. -/
theorem match_reason_counterexample :
    ({ Cpus := 1 : config }).Cpus
        > getScalarResources { id := "o1", hostname := "a", slaveId := "s1", resources := [] } "cpus" ∧
      matchOffer { Cpus := 1 } { id := "o1", hostname := "a", slaveId := "s1", resources := [] }
        = "no cpus" ∧
      matchOffer { Cpus := 1 } { id := "o1", hostname := "a", slaveId := "s1", resources := [] }
        ≠ "insufficient compute" := by
  refine ⟨by norm_num [getScalarResources], ?_, ?_⟩ <;> decide

/-- A mesos `TaskID`. -/
structure TaskID where
  value : String
deriving DecidableEq, Repr

/-- The `TaskInfo` the scheduler builds in `Scheduler.launchTask`: task
name, identifier, slave id, executor id (from `createExecutor`), the two
scalar resource grants, the serialized configuration snapshot (modelled as
the configuration value itself) and the stack labels string. -/
structure TaskInfo where
  name : String
  taskId : TaskID
  slaveId : String
  executorId : String
  cpus : ℚ
  mem : ℚ
  data : config
  labels : String
deriving DecidableEq, Repr

/-- Modelled from the spec: the Cluster Registry (`Cluster` in the sources;
its file is not among the provided source files, only its callers are).
Per spec §4.3 it is a hostname → placement map with `Add` (insert, caller
guarantees absence), `Remove` (idempotent delete), `Exists` and `GetAllTasks`
(snapshot of all placements); it is modelled as an association list. -/
structure Cluster where
  tasks : List (String × TaskInfo)
deriving DecidableEq, Repr

/-- Modelled from the spec: registry membership test. -/
def Cluster.ExistsHost (c : Cluster) (hostname : String) : Bool :=
  c.tasks.any (fun p => p.1 == hostname)

/-- Modelled from the spec: insert a placement for a hostname (the caller
has checked absence). -/
def Cluster.Add (c : Cluster) (hostname : String) (task : TaskInfo) : Cluster :=
  ⟨(hostname, task) :: c.tasks⟩

/-- Modelled from the spec: remove a hostname's placement, a no-op when it
is absent. -/
def Cluster.Remove (c : Cluster) (hostname : String) : Cluster :=
  ⟨c.tasks.filter (fun p => !(p.1 == hostname))⟩

/-- Modelled from the spec: snapshot of all placements. -/
def Cluster.GetAllTasks (c : Cluster) : List (String × TaskInfo) :=
  c.tasks

/-- The hostnames currently holding a placement. -/
def Cluster.hostnames (c : Cluster) : List String :=
  c.tasks.map Prod.fst

/-- Commands the scheduler issues to the resource manager through the
driver: declines (with a refusal interval in seconds), launches and kills. -/
inductive Command where
  | declineOffer (offerId : String) (refuseSeconds : ℚ)
  | launchTasks (offerId : String) (tasks : List TaskInfo) (refuseSeconds : ℚ)
  | killTask (taskId : TaskID)
deriving DecidableEq, Repr

/-- The scheduler's mutable state (`Scheduler` struct): the active flag,
the cluster registry, the driver handle (`none` models the nil handle set
by `Disconnected`) and the stack labels string. -/
structure SchedState where
  active : Bool
  cluster : Cluster
  driver : Option Unit
  labels : String
deriving DecidableEq, Repr

/-- `createExecutor` (scheduler.go), reduced to the executor identifier the
claims can observe: `"statsd-kafka-" ++ hostname`. -/
def createExecutorId (hostname : String) : String :=
  "statsd-kafka-" ++ hostname

/-- `Scheduler.launchTask` (scheduler.go): build the task name
`"statsd-kafka-" ++ hostname`, append a fresh uuid `u` to form the task id,
snapshot the configuration into the task, add the placement to the registry
and issue one `LaunchTasks` command with a 1-second refusal interval. -/
def launchTask (cfg : config) (u : String) (st : SchedState) (offer : Offer) :
    SchedState × List Command :=
  let taskName := "statsd-kafka-" ++ offer.hostname
  let tid : TaskID := ⟨taskName ++ "-" ++ u⟩
  let task : TaskInfo :=
    { name := taskName, taskId := tid, slaveId := offer.slaveId,
      executorId := createExecutorId offer.hostname,
      cpus := cfg.Cpus, mem := cfg.Mem, data := cfg, labels := st.labels }
  ({ st with cluster := st.cluster.Add offer.hostname task },
    [Command.launchTasks offer.id [task] 1])

/-- Result of `Scheduler.acceptOffer`: the decline reason (empty when the
offer was accepted), the updated scheduler state, the number of uuid draws
consumed so far and the commands issued. -/
structure OfferOutcome where
  declineReason : String
  state : SchedState
  draws : Nat
  commands : List Command
deriving Repr

/-- `Scheduler.acceptOffer` (scheduler.go): an offer from a hostname that
already has a placement is refused with a "already running" reason; else
the matcher runs, and on an empty decline reason the task is launched.
`uuidOf` is the stream of uuids the (random) `uuid()` generator produces,
`n` the number of draws consumed before this call. -/
def acceptOffer (cfg : config) (uuidOf : Nat → String) (n : Nat)
    (st : SchedState) (offer : Offer) : OfferOutcome :=
  if st.cluster.ExistsHost offer.hostname then
    { declineReason := "Server on host " ++ offer.hostname ++ " is already running.",
      state := st, draws := n, commands := [] }
  else
    let declineReason := matchOffer cfg offer
    if declineReason = "" then
      let r := launchTask cfg (uuidOf n) st offer
      { declineReason := "", state := r.1, draws := n + 1, commands := r.2 }
    else
      { declineReason := declineReason, state := st, draws := n, commands := [] }

/-- `Scheduler.ResourceOffers` (scheduler.go): under the activity lock,
an inactive scheduler declines every offer of the batch with a 10-second
refusal interval and returns; an active one runs `acceptOffer` on each
offer in turn and declines (10-second interval) each offer whose outcome
carries a non-empty decline reason. -/
def ResourceOffers (cfg : config) (uuidOf : Nat → String) (st : SchedState)
    (offers : List Offer) : SchedState × List Command :=
  if st.active = false then
    (st, offers.map (fun o => Command.declineOffer o.id 10))
  else
    let final := offers.foldl
      (fun (acc : SchedState × Nat × List Command) offer =>
        let out := acceptOffer cfg uuidOf acc.2.1 acc.1 offer
        (out.state, out.draws,
          acc.2.2 ++ out.commands ++
            (if out.declineReason = "" then [] else [Command.declineOffer offer.id 10])))
      (st, 0, [])
    (final.1, final.2.2)

/-- The mesos task states the scheduler can receive in a status callback. -/
inductive TaskState where
  | staging
  | starting
  | running
  | finished
  | failed
  | killed
  | lost
  | error
deriving DecidableEq, BEq, Repr

/-- The terminal-state test of `Scheduler.StatusUpdate` (scheduler.go):
failed, killed, lost, error or finished. -/
def isTerminal (state : TaskState) : Bool :=
  state == TaskState.failed || state == TaskState.killed ||
    state == TaskState.lost || state == TaskState.error ||
    state == TaskState.finished

/-- `Scheduler.StatusUpdate` (scheduler.go): decode the hostname from the
task id (a decode panic, `none`, aborts the callback), then remove the
hostname's placement exactly when the reported state is terminal; any other
state leaves the registry untouched (the update is only logged). -/
def StatusUpdate (st : SchedState) (taskId : String) (state : TaskState) :
    Option SchedState :=
  match hostnameFromTaskId taskId with
  | none => none
  | some hostname =>
      if isTerminal state then
        some { st with cluster := st.cluster.Remove hostname }
      else
        some st

/-- `Scheduler.SetActive` (scheduler.go): under the activity lock, set the
flag; when deactivating, issue one `KillTask` through the driver for every
placement currently in the registry, which is left unchanged.  The Go loop
calls `s.driver.KillTask` without a nil check, so deactivating with a
non-empty registry while the handle is nil panics (`none`); with an empty
registry the loop body never runs and no handle is touched. -/
def SetActive (st : SchedState) (active : Bool) : Option (SchedState × List Command) :=
  let st' := { st with active := active }
  if active then some (st', [])
  else
    match st.cluster.GetAllTasks with
    | [] => some (st', [])
    | t :: ts =>
        match st.driver with
        | none => none
        | some _ =>
            some (st', (t :: ts).map (fun p => Command.killTask p.2.taskId))

/-- The callbacks and control-plane entry points that can mutate the
scheduler state. -/
inductive Event where
  | registered
  | reregistered
  | disconnected
  | resourceOffers (uuidOf : Nat → String) (offers : List Offer)
  | statusUpdate (taskId : String) (state : TaskState)
  | setActive (active : Bool)

/-- One event of the scheduler's life, dispatching to the handlers above;
`none` models a runtime panic inside the handler.  `Registered` and
`Reregistered` record the driver handle, `Disconnected` clears it. -/
def step (cfg : config) (st : SchedState) : Event → Option (SchedState × List Command)
  | Event.registered => some ({ st with driver := some () }, [])
  | Event.reregistered => some ({ st with driver := some () }, [])
  | Event.disconnected => some ({ st with driver := none }, [])
  | Event.resourceOffers uuidOf offers => some (ResourceOffers cfg uuidOf st offers)
  | Event.statusUpdate taskId state => (StatusUpdate st taskId state).map (fun s => (s, []))
  | Event.setActive active => SetActive st active

/-- The scheduler's initial state (`Scheduler.Start`): inactive, a fresh
empty registry from `NewCluster()`, no driver handle yet. -/
def initialState : SchedState :=
  { active := false, cluster := ⟨[]⟩, driver := none, labels := "" }

/-- The scheduler states reachable from the initial state by any sequence
of callbacks and control-plane calls, under arbitrarily varying
configuration (the control plane mutates it concurrently). -/
inductive Reachable : SchedState → Prop where
  | init : Reachable initialState
  | next (cfg : config) (st : SchedState) (e : Event) (st' : SchedState)
      (cmds : List Command) : Reachable st → step cfg st e = some (st', cmds) →
      Reachable st'

theorem remove_not_exists (c : Cluster) (hn : String) :
    (c.Remove hn).ExistsHost hn = false := by
  rw [Cluster.ExistsHost, Cluster.Remove]
  rw [List.any_eq_false]
  intro p hp
  have := List.of_mem_filter hp
  simpa using this

/-- **C4.** `StatusUpdate` decodes the hostname from the task identifier
and removes that hostname's placement from the registry exactly when the
reported state is one of failed, killed, lost, error or finished; for every
non-terminal state the registry (indeed the whole state) is unchanged, and
after a terminal update the hostname is no longer registered. -/
theorem statusUpdate_spec (st : SchedState) (taskId : String) (state : TaskState)
    (hn : String) (hdec : hostnameFromTaskId taskId = some hn) :
    StatusUpdate st taskId state
        = some (if isTerminal state then { st with cluster := st.cluster.Remove hn } else st) ∧
      (isTerminal state = true ↔
        (state = TaskState.failed ∨ state = TaskState.killed ∨ state = TaskState.lost ∨
          state = TaskState.error ∨ state = TaskState.finished)) ∧
      (st.cluster.Remove hn).ExistsHost hn = false := by
  refine ⟨?_, ?_, remove_not_exists st.cluster hn⟩
  · rw [StatusUpdate, hdec]
    by_cases ht : isTerminal state <;> simp [ht]
  · cases state <;> decide

/-- Concrete scheduler configuration used by witnesses: topic and broker
set, cpu 1, mem 64. -/
def cfgW : config :=
  { Topic := "logs", BrokerList := "broker:9092", Cpus := 1, Mem := 64 }

/-- Concrete placement on host "a" used by witnesses. -/
def taskA : TaskInfo :=
  { name := "statsd-kafka-a",
    taskId := ⟨"statsd-kafka-a-00000000-0000-0000-0000-000000000000"⟩,
    slaveId := "s1", executorId := "statsd-kafka-a",
    cpus := 1, mem := 64, data := cfgW, labels := "" }

/-- Concrete placement on host "b" used by witnesses. -/
def taskB : TaskInfo :=
  { name := "statsd-kafka-b",
    taskId := ⟨"statsd-kafka-b-00000000-0000-0000-0000-000000000000"⟩,
    slaveId := "s2", executorId := "statsd-kafka-b",
    cpus := 1, mem := 64, data := cfgW, labels := "" }

/-- Registry holding host "a" only, used by witnesses. -/
def clusterA : Cluster := ⟨[("a", taskA)]⟩

/-- Registry holding hosts "a" and "b", used by witnesses. -/
def clusterAB : Cluster := ⟨[("a", taskA), ("b", taskB)]⟩

/-- Active scheduler with host "a" registered and a live driver. -/
def stA : SchedState :=
  { active := true, cluster := clusterA, driver := some (), labels := "" }

/-- Active scheduler with hosts "a" and "b" registered and a live driver. -/
def stAB : SchedState :=
  { active := true, cluster := clusterAB, driver := some (), labels := "" }

/-- Inactive scheduler with an empty registry and a live driver. -/
def stIdle : SchedState :=
  { active := false, cluster := ⟨[]⟩, driver := some (), labels := "" }

/-- A well-provisioned offer from host "a". -/
def offer1 : Offer :=
  { id := "o1", hostname := "a", slaveId := "s1",
    resources := [⟨"cpus", some 4⟩, ⟨"mem", some 1024⟩] }

/-- An empty offer from host "b". -/
def offer2 : Offer :=
  { id := "o2", hostname := "b", slaveId := "s2", resources := [] }

/-- The uuid stream used by witnesses: always the canonical zero uuid. -/
def uuidW : Nat → String := fun _ => "00000000-0000-0000-0000-000000000000"

/-- Witness for C4: a FAILED status for task `statsd-kafka-a-<uuid>`
removes host `"a"` from the registry. -/
theorem statusUpdate_spec_witness :
    StatusUpdate stA "statsd-kafka-a-00000000-0000-0000-0000-000000000000" TaskState.failed
        = some (if isTerminal TaskState.failed then
              { stA with cluster := stA.cluster.Remove "a" }
            else stA) ∧
      (isTerminal TaskState.failed = true ↔
        (TaskState.failed = TaskState.failed ∨ TaskState.failed = TaskState.killed ∨
          TaskState.failed = TaskState.lost ∨ TaskState.failed = TaskState.error ∨
          TaskState.failed = TaskState.finished)) ∧
      (stA.cluster.Remove "a").ExistsHost "a" = false :=
  statusUpdate_spec stA "statsd-kafka-a-00000000-0000-0000-0000-000000000000"
    TaskState.failed "a" (by decide)

/-- **C5.** When the driver handle is present (or the registry is empty so
that no kill is attempted), `SetActive false` sets the flag, issues exactly
one kill command per placement present in the registry at the moment of the
call — the command list is the image of the registry snapshot, so none is
skipped and none duplicated — and leaves the registry contents unchanged;
on an empty registry it issues no commands at all. -/
theorem setActive_kills (st : SchedState)
    (hok : st.driver.isSome = true ∨ st.cluster.GetAllTasks = []) :
    SetActive st false
        = some ({ st with active := false },
            st.cluster.GetAllTasks.map (fun p => Command.killTask p.2.taskId)) ∧
      (st.cluster.GetAllTasks.map (fun p => Command.killTask p.2.taskId)).length
        = st.cluster.GetAllTasks.length := by
  refine ⟨?_, List.length_map _ _⟩
  rw [SetActive]
  cases htasks : st.cluster.GetAllTasks with
  | nil => simp [htasks]
  | cons t ts =>
      cases hdrv : st.driver with
      | none =>
          rcases hok with hsome | hempty
          · rw [hdrv] at hsome
            simp at hsome
          · rw [hempty] at htasks
            simp at htasks
      | some d => simp [htasks, hdrv]

/-- Witness for C5: deactivating with hosts {a, b} registered and a live
driver issues exactly the two kills, one per host, registry untouched. -/
theorem setActive_kills_witness :
    SetActive stAB false
        = some ({ stAB with active := false },
            stAB.cluster.GetAllTasks.map (fun p => Command.killTask p.2.taskId)) ∧
      (stAB.cluster.GetAllTasks.map (fun p => Command.killTask p.2.taskId)).length
        = stAB.cluster.GetAllTasks.length :=
  setActive_kills stAB (Or.inl rfl)

/-- **C6.** An inactive scheduler declines every offer of the batch — one
decline command per offer, each with the finite 10-second refusal interval
— and returns with its state (in particular the registry) unchanged. -/
theorem inactive_declines (cfg : config) (uuidOf : Nat → String)
    (st : SchedState) (offers : List Offer) (hin : st.active = false) :
    ResourceOffers cfg uuidOf st offers
        = (st, offers.map (fun o => Command.declineOffer o.id 10)) ∧
      (offers.map (fun o => Command.declineOffer o.id 10)).length = offers.length := by
  refine ⟨?_, List.length_map _ _⟩
  rw [ResourceOffers, if_pos hin]

/-- Witness for C6 on a two-offer batch. -/
theorem inactive_declines_witness :
    ResourceOffers cfgW uuidW stIdle [offer1, offer2]
        = (stIdle, [offer1, offer2].map (fun o => Command.declineOffer o.id 10)) ∧
      ([offer1, offer2].map (fun o => Command.declineOffer o.id 10)).length
        = [offer1, offer2].length :=
  inactive_declines cfgW uuidW stIdle [offer1, offer2] rfl

theorem not_mem_hostnames_of_exists_false (c : Cluster) (hn : String)
    (h : c.ExistsHost hn = false) : hn ∉ c.hostnames := by
  rw [Cluster.ExistsHost, List.any_eq_false] at h
  rw [Cluster.hostnames]
  intro hmem
  rcases List.mem_map.mp hmem with ⟨p, hp, hfst⟩
  exact h p hp (by simp [hfst])

theorem acceptOffer_nodup (cfg : config) (uuidOf : Nat → String) (n : Nat)
    (st : SchedState) (offer : Offer) (h : st.cluster.hostnames.Nodup) :
    (acceptOffer cfg uuidOf n st offer).state.cluster.hostnames.Nodup := by
  rw [acceptOffer]
  by_cases hex : st.cluster.ExistsHost offer.hostname
  · simp only [hex, if_true]
    exact h
  · simp only [hex, if_false, Bool.false_eq_true]
    by_cases hm : matchOffer cfg offer = ""
    · simp only [if_pos hm]
      show (st.cluster.Add offer.hostname _).hostnames.Nodup
      rw [Cluster.Add, Cluster.hostnames]
      refine List.Nodup.cons ?_ h
      exact not_mem_hostnames_of_exists_false st.cluster offer.hostname
        (by simpa using hex)
    · simp only [if_neg hm]
      exact h

theorem resourceOffers_nodup (cfg : config) (uuidOf : Nat → String)
    (st : SchedState) (offers : List Offer) (h : st.cluster.hostnames.Nodup) :
    (ResourceOffers cfg uuidOf st offers).1.cluster.hostnames.Nodup := by
  rw [ResourceOffers]
  by_cases ha : st.active = false
  · simp only [ha, if_pos rfl]
    exact h
  · simp only [ha, if_neg ha]
    suffices hgen : ∀ (l : List Offer) (acc : SchedState × Nat × List Command),
        acc.1.cluster.hostnames.Nodup →
        (l.foldl (fun (acc : SchedState × Nat × List Command) offer =>
            let out := acceptOffer cfg uuidOf acc.2.1 acc.1 offer
            (out.state, out.draws,
              acc.2.2 ++ out.commands ++
                (if out.declineReason = "" then []
                 else [Command.declineOffer offer.id 10]))) acc).1.cluster.hostnames.Nodup by
      exact hgen offers (st, 0, []) h
    intro l
    induction l with
    | nil => intro acc hacc; exact hacc
    | cons o t ih =>
        intro acc hacc
        exact ih _ (acceptOffer_nodup cfg uuidOf acc.2.1 acc.1 o hacc)

theorem statusUpdate_nodup (st st' : SchedState) (taskId : String) (state : TaskState)
    (hsu : StatusUpdate st taskId state = some st') (h : st.cluster.hostnames.Nodup) :
    st'.cluster.hostnames.Nodup := by
  rw [StatusUpdate] at hsu
  split at hsu
  · exact absurd hsu (by simp)
  · rename_i hostname heq
    split at hsu
    · cases hsu
      show ((st.cluster.Remove hostname).hostnames).Nodup
      rw [Cluster.Remove, Cluster.hostnames]
      exact h.sublist (List.Sublist.map Prod.fst (List.filter_sublist _))
    · cases hsu
      exact h


theorem setActive_cluster_eq (st st' : SchedState) (b : Bool) (cmds : List Command)
    (hsa : SetActive st b = some (st', cmds)) : st'.cluster = st.cluster := by
  rw [SetActive] at hsa
  cases b with
  | true =>
      rw [if_pos rfl] at hsa
      cases hsa
      rfl
  | false =>
      rw [if_neg (by simp)] at hsa
      cases htasks : st.cluster.GetAllTasks with
      | nil =>
          rw [htasks] at hsa
          cases hsa
          rfl
      | cons t ts =>
          rw [htasks] at hsa
          cases hdrv : st.driver with
          | none => rw [hdrv] at hsa; exact absurd hsa (by simp)
          | some d =>
              rw [hdrv] at hsa
              cases hsa
              rfl

theorem reachable_nodup (st : SchedState) (hr : Reachable st) :
    st.cluster.hostnames.Nodup := by
  induction hr with
  | init => exact List.nodup_nil
  | next cfg st e st' cmds hr hstep ih =>
      cases e with
      | registered =>
          rw [step] at hstep
          cases hstep
          exact ih
      | reregistered =>
          rw [step] at hstep
          cases hstep
          exact ih
      | disconnected =>
          rw [step] at hstep
          cases hstep
          exact ih
      | resourceOffers uuidOf offers =>
          rw [step] at hstep
          have hx : ResourceOffers cfg uuidOf st offers = (st', cmds) := by
            injection hstep
          have h := resourceOffers_nodup cfg uuidOf st offers ih
          rw [hx] at h
          exact h
      | statusUpdate taskId state =>
          rw [step] at hstep
          cases hsu : StatusUpdate st taskId state with
          | none => rw [hsu] at hstep; exact absurd hstep (by simp)
          | some s =>
              rw [hsu] at hstep
              simp at hstep
              have := statusUpdate_nodup st s taskId state hsu ih
              rw [← hstep.1]
              exact this
      | setActive b =>
          rw [step] at hstep
          have := setActive_cluster_eq st st' b cmds hstep
          rw [Cluster.hostnames] at ih ⊢
          rw [this]
          exact ih

theorem nodup_filter_key_le_one (hn : String) (l : List (String × TaskInfo))
    (h : (l.map Prod.fst).Nodup) :
    (l.filter (fun p => p.1 == hn)).length ≤ 1 := by
  induction l with
  | nil => simp
  | cons p t ih =>
      rw [List.map_cons, List.nodup_cons] at h
      rw [List.filter_cons]
      by_cases hp : p.1 = hn
      · simp only [hp, beq_self_eq_true, if_pos]
        have hnone : t.filter (fun q => q.1 == hn) = [] := by
          rw [List.filter_eq_nil_iff]
          intro q hq
          intro hbeq
          exact h.1 (hp ▸ List.mem_map.mpr ⟨q, hq, by simpa using hbeq⟩)
        simp [hnone]
      · have : (p.1 == hn) = false := by simpa using hp
        simp only [this, Bool.false_eq_true, if_false]
        exact ih h.2

/-- **C3.** Registry uniqueness: an offer from a hostname that already has
a placement is always refused by `acceptOffer` with the "already running"
reason (so `ResourceOffers` declines it) and the state is untouched, no new
placement being added; consequently every reachable scheduler state maps
each hostname to at most one placement. -/
theorem registry_unique :
    (∀ (cfg : config) (uuidOf : Nat → String) (n : Nat) (st : SchedState) (offer : Offer),
        st.cluster.ExistsHost offer.hostname = true →
        acceptOffer cfg uuidOf n st offer
          = { declineReason := "Server on host " ++ offer.hostname ++ " is already running.",
              state := st, draws := n, commands := [] }) ∧
      (∀ st : SchedState, Reachable st → ∀ hn : String,
        (st.cluster.tasks.filter (fun p => p.1 == hn)).length ≤ 1) := by
  constructor
  · intro cfg uuidOf n st offer hex
    rw [acceptOffer, if_pos hex]
  · intro st hr hn
    exact nodup_filter_key_le_one hn st.cluster.tasks (reachable_nodup st hr)

/-- Witness for C3: a second offer from the already-registered host "a" is
refused and changes nothing; the initial state trivially satisfies the
at-most-one-placement bound. -/
theorem registry_unique_witness :
    acceptOffer cfgW uuidW 0 stA offer1
        = { declineReason := "Server on host " ++ offer1.hostname ++ " is already running.",
            state := stA, draws := 0, commands := [] } ∧
      (initialState.cluster.tasks.filter (fun p => p.1 == "a")).length ≤ 1 :=
  ⟨registry_unique.1 cfgW uuidW 0 stA offer1 (by decide),
    registry_unique.2 initialState Reachable.init "a"⟩

/-- The scheduler state produced by a `Disconnected` callback while host
"a" still has a placement: active, one placement, nil driver handle. -/
def stNilDriver : SchedState :=
  { active := true, cluster := clusterA, driver := none, labels := "" }

/-- **C9 (refuted — the code crashes).** After `Disconnected` clears the
driver handle, the control-plane call `SetActive false` with a non-empty
registry reaches `s.driver.KillTask` on the nil handle: the model yields
`none` (a nil-interface-method panic in Go), not a graceful failure — there
is no nil-handle error branch in `Scheduler.SetActive` at all. -/
theorem setActive_nil_driver_crash :
    step cfgW stA Event.disconnected = some (stNilDriver, []) ∧
      SetActive stNilDriver false = none := by
  constructor
  · rfl
  · rfl

/-- Go `url.Values.Get(name)`: the first value supplied for the key, or
the empty string when the key is absent. -/
def getParam (q : List (String × String)) (name : String) : String :=
  match q.find? (fun p => p.1 == name) with
  | some p => p.2
  | none => ""

/-- `setConfig` (http_server.go): overwrite the field with the query value
only when that value is non-empty. -/
def setConfig (q : List (String × String)) (name : String) (current : String) : String :=
  let value := getParam q name
  if value ≠ "" then value else current

/-- The numeric accepted forms of Go `strconv.ParseFloat` relevant here:
an optional sign followed by decimal digits with an optional fractional
part (at least one digit overall); anything else — in particular the empty
string — fails.  Exponent, hex, infinity and NaN forms, which `ParseFloat`
would also accept, do not occur as cpu/mem quantities and are not
modelled. -/
def digitsVal (l : List Char) : ℚ :=
  l.foldl (fun acc c => acc * 10 + ((c.toNat - '0'.toNat : Nat) : ℚ)) 0

/-- See `digitsVal`; parser for the decimal forms of `strconv.ParseFloat`. -/
def goParseFloat (s : String) : Option ℚ :=
  let cs := s.toList
  let signBody : ℚ × List Char :=
    match cs with
    | '+' :: t => (1, t)
    | '-' :: t => (-1, t)
    | t => (1, t)
  let intPart := signBody.2.takeWhile (fun c => c.isDigit)
  let rest := signBody.2.dropWhile (fun c => c.isDigit)
  match rest with
  | [] => if intPart.isEmpty then none else some (signBody.1 * digitsVal intPart)
  | '.' :: fracPart =>
      if fracPart.all (fun c => c.isDigit) && !(intPart.isEmpty && fracPart.isEmpty) then
        some (signBody.1 * (digitsVal intPart + digitsVal fracPart / (10 : ℚ) ^ fracPart.length))
      else none
  | _ => none

/-- `setFloatConfig` (http_server.go): parse the query value as a float —
returning unchanged on a parse error (which includes the absent/empty
case) — and overwrite the field when the value is non-empty. -/
def setFloatConfig (q : List (String × String)) (name : String) (current : ℚ) : ℚ :=
  let value := getParam q name
  match goParseFloat value with
  | none => current
  | some floatValue => if value ≠ "" then floatValue else current

/-- `handleUpdate` (http_server.go): overwrite the seven recognized
configuration keys from the query parameters through `setConfig` /
`setFloatConfig`; every other field of the configuration is untouched. -/
def handleUpdate (q : List (String × String)) (c : config) : config :=
  { c with
    ProducerProperties := setConfig q "producer.properties" c.ProducerProperties,
    BrokerList := setConfig q "broker.list" c.BrokerList,
    Topic := setConfig q "topic" c.Topic,
    Transform := setConfig q "transform" c.Transform,
    SchemaRegistryUrl := setConfig q "schema.registry.url" c.SchemaRegistryUrl,
    Cpus := setFloatConfig q "cpu" c.Cpus,
    Mem := setFloatConfig q "mem" c.Mem }

/-- The query keys `handleUpdate` recognizes. -/
def recognizedKeys : List String :=
  ["producer.properties", "broker.list", "topic", "transform",
   "schema.registry.url", "cpu", "mem"]

theorem getParam_cons_ne (k v name : String) (q : List (String × String))
    (hk : k ≠ name) : getParam ((k, v) :: q) name = getParam q name := by
  rw [getParam, getParam, List.find?_cons]
  have : ((k, v).1 == name) = false := by simpa using hk
  rw [this]

theorem setConfig_eq (q : List (String × String)) (name current : String) :
    setConfig q name current
      = if getParam q name = "" then current else getParam q name := by
  rw [setConfig]
  by_cases hv : getParam q name = "" <;> simp [hv]

theorem setFloatConfig_eq (q : List (String × String)) (name : String) (current : ℚ) :
    setFloatConfig q name current
      = match goParseFloat (getParam q name) with
        | none => current
        | some v => v := by
  rw [setFloatConfig]
  cases hp : goParseFloat (getParam q name) with
  | none => rfl
  | some v =>
      have hne : getParam q name ≠ "" := by
        intro he
        rw [he] at hp
        have hnone : goParseFloat "" = none := by decide
        rw [hnone] at hp
        exact Option.noConfusion hp
      simp [hne]

/-- **C8.** Frame property of the configuration update: the eight fields
without a recognized query key are never touched; each recognized string
key is overwritten exactly when supplied non-empty and kept otherwise; the
cpu and mem quantities are overwritten exactly when the supplied value
parses as a number (the empty string never does) and kept otherwise; and
prepending a query pair with an unrecognized key changes nothing. -/
theorem handleUpdate_frame (q : List (String × String)) (c : config) :
    ((handleUpdate q c).Api = c.Api ∧ (handleUpdate q c).Master = c.Master ∧
      (handleUpdate q c).FrameworkName = c.FrameworkName ∧
      (handleUpdate q c).FrameworkRole = c.FrameworkRole ∧
      (handleUpdate q c).User = c.User ∧ (handleUpdate q c).Executor = c.Executor ∧
      (handleUpdate q c).Namespace = c.Namespace ∧
      (handleUpdate q c).LogLevel = c.LogLevel) ∧
    ((handleUpdate q c).ProducerProperties
        = if getParam q "producer.properties" = "" then c.ProducerProperties
          else getParam q "producer.properties") ∧
    ((handleUpdate q c).BrokerList
        = if getParam q "broker.list" = "" then c.BrokerList
          else getParam q "broker.list") ∧
    ((handleUpdate q c).Topic
        = if getParam q "topic" = "" then c.Topic else getParam q "topic") ∧
    ((handleUpdate q c).Transform
        = if getParam q "transform" = "" then c.Transform else getParam q "transform") ∧
    ((handleUpdate q c).SchemaRegistryUrl
        = if getParam q "schema.registry.url" = "" then c.SchemaRegistryUrl
          else getParam q "schema.registry.url") ∧
    ((handleUpdate q c).Cpus
        = match goParseFloat (getParam q "cpu") with
          | none => c.Cpus
          | some v => v) ∧
    ((handleUpdate q c).Mem
        = match goParseFloat (getParam q "mem") with
          | none => c.Mem
          | some v => v) ∧
    (∀ k v : String, k ∉ recognizedKeys →
      handleUpdate ((k, v) :: q) c = handleUpdate q c) := by
  refine ⟨⟨rfl, rfl, rfl, rfl, rfl, rfl, rfl, rfl⟩,
    setConfig_eq q "producer.properties" c.ProducerProperties,
    setConfig_eq q "broker.list" c.BrokerList,
    setConfig_eq q "topic" c.Topic,
    setConfig_eq q "transform" c.Transform,
    setConfig_eq q "schema.registry.url" c.SchemaRegistryUrl,
    setFloatConfig_eq q "cpu" c.Cpus,
    setFloatConfig_eq q "mem" c.Mem,
    ?_⟩
  intro k v hk
  have h1 : k ≠ "producer.properties" := fun he => hk (by rw [he]; decide)
  have h2 : k ≠ "broker.list" := fun he => hk (by rw [he]; decide)
  have h3 : k ≠ "topic" := fun he => hk (by rw [he]; decide)
  have h4 : k ≠ "transform" := fun he => hk (by rw [he]; decide)
  have h5 : k ≠ "schema.registry.url" := fun he => hk (by rw [he]; decide)
  have h6 : k ≠ "cpu" := fun he => hk (by rw [he]; decide)
  have h7 : k ≠ "mem" := fun he => hk (by rw [he]; decide)
  rw [handleUpdate, handleUpdate]
  rw [setConfig, setConfig, setConfig, setConfig, setConfig,
    setConfig, setConfig, setConfig, setConfig, setConfig,
    setFloatConfig, setFloatConfig, setFloatConfig, setFloatConfig]
  rw [getParam_cons_ne k v "producer.properties" q h1,
    getParam_cons_ne k v "broker.list" q h2,
    getParam_cons_ne k v "topic" q h3,
    getParam_cons_ne k v "transform" q h4,
    getParam_cons_ne k v "schema.registry.url" q h5,
    getParam_cons_ne k v "cpu" q h6,
    getParam_cons_ne k v "mem" q h7]

/-- Witness for C8: `topic=orders` is applied, an unparseable `cpu` and an
absent `mem` leave the quantities alone, and an unrecognized `bogus` key is
ignored. -/
theorem handleUpdate_frame_witness :
    (handleUpdate [("topic", "orders"), ("cpu", "abc")] cfgW).Topic
        = (if getParam [("topic", "orders"), ("cpu", "abc")] "topic" = "" then cfgW.Topic
           else getParam [("topic", "orders"), ("cpu", "abc")] "topic") ∧
      (handleUpdate [("topic", "orders"), ("cpu", "abc")] cfgW).Cpus
        = (match goParseFloat (getParam [("topic", "orders"), ("cpu", "abc")] "cpu") with
           | none => cfgW.Cpus
           | some v => v) ∧
      (handleUpdate [("topic", "orders"), ("cpu", "abc")] cfgW).Mem
        = (match goParseFloat (getParam [("topic", "orders"), ("cpu", "abc")] "mem") with
           | none => cfgW.Mem
           | some v => v) ∧
      handleUpdate (("bogus", "1") :: [("topic", "orders"), ("cpu", "abc")]) cfgW
        = handleUpdate [("topic", "orders"), ("cpu", "abc")] cfgW := by
  have h := handleUpdate_frame [("topic", "orders"), ("cpu", "abc")] cfgW
  exact ⟨h.2.2.2.1, h.2.2.2.2.2.2.1, h.2.2.2.2.2.2.2.1,
    h.2.2.2.2.2.2.2.2 "bogus" "1" (by decide)⟩
